import Mathlib

/-
Verification of the cart/order core of a small online-store web application.

The codebase has two variants of the store logic:
* an ORM-backed app (app.py) with a per-session cart dictionary
  (product id -> quantity), Decimal cart totals, and two order-creation
  endpoints (a PayPal path creating `paid` orders and an MMG/cash path
  creating `pending` orders), both of which clear the session cart only
  after the order row is committed; and
* a JSON/Supabase-backed store (store.py) whose checkout endpoint receives
  the cart from the client, validates stock for every line before touching
  inventory, and then decrements stock line by line via reduce_stock.

The definitions below are direct translations of the corresponding Python
functions.  Money amounts are modelled as exact rationals (the Python code
uses Decimal for cart totals); machine-level float conversion used only for
JSON serialization is not modelled.  Database/HTTP plumbing is modelled by
explicit state passing: the order endpoints take a `persistOk` flag that
stands for the success of the database commit (a failing commit raises in
Python before the cart-clearing statement runs, so the session cart and the
order table are unchanged in that case).
-/

/- Python str.strip() with no argument: remove leading and trailing
whitespace.  Written structurally over the character list so that it
evaluates by kernel reduction. -/
def pyStrip (s : String) : String :=
  ⟨((s.data.dropWhile Char.isWhitespace).reverse.dropWhile Char.isWhitespace).reverse⟩

namespace App

/- Product row of app.py (class Product).  `created_at` and `description`
are never read by the cart/order logic and are omitted. -/
structure Product where
  id : Nat
  name : String
  price : Rat
  image_filename : String
  category : String
  is_active : Bool
deriving DecidableEq

/- Session cart of app.py: the dict stored in session["cart"], mapping
product id to quantity, in insertion order.  Keys are unique. -/
abbrev Cart := List (Nat × Int)

/- cart.get(str(pid), 0) -/
def cartGet (c : Cart) (pid : Nat) : Int :=
  match c with
  | [] => 0
  | e :: rest => if e.1 == pid then e.2 else cartGet rest pid

/- cart[str(pid)] = q : dict assignment updates the existing entry in place
or appends a new one at the end. -/
def cartSet (c : Cart) (pid : Nat) (q : Int) : Cart :=
  match c with
  | [] => [(pid, q)]
  | e :: rest => if e.1 == pid then (pid, q) :: rest else e :: cartSet rest pid q

/- cart.pop(str(pid), None) -/
def cartPop (c : Cart) (pid : Nat) : Cart :=
  c.filter (fun e => e.1 != pid)

/- Product.query.get(pid): primary-key lookup in the product table. -/
def getProduct (catalog : List Product) (pid : Nat) : Option Product :=
  match catalog with
  | [] => none
  | p :: rest => if p.id == pid then some p else getProduct rest pid

/- POST /api/cart/add: qty = max(1, int(qty)); 400 (None) if the product is
missing or inactive; otherwise adds qty to the existing entry. -/
def api_cart_add (catalog : List Product) (c : Cart) (product_id : Nat) (qty0 : Int) :
    Option Cart :=
  let qty := max 1 qty0
  match getProduct catalog product_id with
  | none => none
  | some product =>
    if product.is_active then
      some (cartSet c product_id (cartGet c product_id + qty))
    else
      none

/- POST /api/cart/update: a quantity <= 0 removes the entry, otherwise the
entry is overwritten with exactly qty. -/
def api_cart_update (c : Cart) (product_id : Nat) (qty : Int) : Cart :=
  if qty ≤ 0 then cartPop c product_id else cartSet c product_id qty

/- POST /api/cart/remove -/
def api_cart_remove (c : Cart) (product_id : Nat) : Cart :=
  cartPop c product_id

/- One endpoint call against the session cart, used to state the ledger
invariant over arbitrary operation sequences.  `add` carries the catalog it
is resolved against; a rejected add (missing/inactive product) leaves the
cart unchanged, exactly as the endpoint returns 400 before set_cart. -/
inductive CartOp where
  | add (catalog : List Product) (product_id : Nat) (qty : Int)
  | update (product_id : Nat) (qty : Int)
  | remove (product_id : Nat)

def applyCartOp (c : Cart) : CartOp → Cart
  | .add catalog product_id qty =>
    match api_cart_add catalog c product_id qty with
    | some c2 => c2
    | none => c
  | .update product_id qty => api_cart_update c product_id qty
  | .remove product_id => api_cart_remove c product_id

def applyCartOps (ops : List CartOp) (c : Cart) : Cart :=
  ops.foldl applyCartOp c

/- Item dictionary built by cart_items_and_total for each resolvable entry. -/
structure CartItem where
  id : Nat
  name : String
  price : Rat
  qty : Int
  image_filename : String
  category : String
  line_total : Rat
deriving DecidableEq

/- cart_items_and_total(): iterates the cart in order, silently skipping
entries whose product no longer resolves, summing price * qty with exact
(Decimal) arithmetic. -/
def cart_items_and_total (catalog : List Product) : Cart → List CartItem × Rat
  | [] => ([], 0)
  | e :: rest =>
    match getProduct catalog e.1 with
    | none => cart_items_and_total catalog rest
    | some p =>
      let line := p.price * (e.2 : Rat)
      let r := cart_items_and_total catalog rest
      (⟨p.id, p.name, p.price, e.2, p.image_filename, p.category, line⟩ :: r.1,
        line + r.2)

/- Line item serialized into Order.items_json. -/
structure OrderItem where
  id : Nat
  name : String
  price : Rat
  qty : Int
deriving DecidableEq

/- Order row of app.py (class Order); created_at omitted. -/
structure Order where
  items : List OrderItem
  subtotal : Rat
  customer_name : String
  email : String
  phone : String
  address : String
  payment_method : String
  status : String
deriving DecidableEq

structure CustomerInfo where
  name : String
  email : String
  phone : String
  address : String
deriving DecidableEq

/- The relevant server state: product table, the calling session cart, and
the order table (orders listed in insertion order, so a row id is its
index). -/
structure AppState where
  catalog : List Product
  cart : Cart
  orders : List Order
deriving DecidableEq

/- The Order row constructed by the order endpoints from the current cart:
items and subtotal come from cart_items_and_total, customer fields are
stripped. -/
def order_of (payment_method status : String) (info : CustomerInfo) (s : AppState) : Order :=
  let r := cart_items_and_total s.catalog s.cart
  { items := r.1.map (fun i => ⟨i.id, i.name, i.price, i.qty⟩)
    subtotal := r.2
    customer_name := pyStrip info.name
    email := pyStrip info.email
    phone := pyStrip info.phone
    address := pyStrip info.address
    payment_method := payment_method
    status := status }

/- Shared body of POST /api/order/paypal and /api/order/mmg (the two
handlers are identical except for payment_method and status).  Returns the
JSON response (order id on success, error string otherwise) together with
the post-state.  `persistOk` models whether db.session.commit() succeeds;
on a failed commit the handler raises before set_cart({}) runs, so the
state is unchanged. -/
def api_order_generic (payment_method status : String) (info : CustomerInfo)
    (persistOk : Bool) (s : AppState) : Except String Nat × AppState :=
  if pyStrip info.name == "" || pyStrip info.email == "" ||
      pyStrip info.phone == "" || pyStrip info.address == "" then
    (.error "Missing customer information.", s)
  else
    let r := cart_items_and_total s.catalog s.cart
    if r.1.isEmpty then
      (.error "Cart is empty.", s)
    else if persistOk then
      (.ok s.orders.length,
        { s with orders := s.orders ++ [order_of payment_method status info s], cart := [] })
    else
      (.error "PersistenceFailure", s)

def api_order_paypal (info : CustomerInfo) (persistOk : Bool) (s : AppState) :
    Except String Nat × AppState :=
  api_order_generic "paypal" "paid" info persistOk s

def api_order_mmg (info : CustomerInfo) (persistOk : Bool) (s : AppState) :
    Except String Nat × AppState :=
  api_order_generic "mmg" "pending" info persistOk s

/- The price-updating part of the admin product edit handler. -/
def admin_products_edit_price (s : AppState) (pid : Nat) (newPrice : Rat) : AppState :=
  { s with catalog := s.catalog.map (fun p => if p.id == pid then { p with price := newPrice } else p) }

/- The admin product delete handler. -/
def admin_products_delete (s : AppState) (pid : Nat) : AppState :=
  { s with catalog := s.catalog.filter (fun p => p.id != pid) }

/- is the Except response a success -/
def respOk : Except String Nat → Bool
  | .ok _ => true
  | .error _ => false

end App

namespace Store

/- Product dictionary of store.py / products.json.  The price key may be
absent (admin edit removes it for empty input); quantity defaults to 0 when
missing, which load_products normalizes.  Presentation-only keys (image,
description, category, created_at) are omitted. -/
structure Product where
  id : String
  name : String
  price : Option Rat
  quantity : Int
deriving DecidableEq

/- One element of the cart list POSTed to /api/cart/checkout.  name and
price are client-supplied and used only in the WhatsApp order summary. -/
structure CartLine where
  id : String
  qty : Int
  name : String
  price : Rat
deriving DecidableEq

/- get_product_by_id: first product with the matching id (the generator
next((p for p in products if p.get("id") == pid), None)). -/
def get_product_by_id (products : List Product) (pid : String) : Option Product :=
  match products with
  | [] => none
  | p :: rest => if p.id == pid then some p else get_product_by_id rest pid

/- check_stock_availability -/
def check_stock_availability (products : List Product) (pid : String)
    (requested_qty : Int) : Bool × String :=
  match get_product_by_id products pid with
  | none => (false, "Product not found")
  | some product =>
    let current_stock := product.quantity
    if current_stock ≤ 0 then
      (false, "Product is out of stock")
    else if requested_qty > current_stock then
      (false, "Only " ++ toString current_stock ++ " items available in stock")
    else
      (true, "Available")

/- The in-place mutation of the first product with the given id, as done by
the lookup loops in reduce_stock / update_product. -/
def update_first (products : List Product) (pid : String) (f : Product → Product) :
    List Product :=
  match products with
  | [] => []
  | p :: rest => if p.id == pid then f p :: rest else p :: update_first rest pid f

/- reduce_stock: re-reads the current quantity, refuses a decrement larger
than it, otherwise stores current - quantity.  Returns the (success,
message) pair and the resulting product list. -/
def reduce_stock (products : List Product) (pid : String) (quantity : Int) :
    (Bool × String) × List Product :=
  match get_product_by_id products pid with
  | none => ((false, "Product not found"), products)
  | some product =>
    let current_stock := product.quantity
    if current_stock < quantity then
      ((false, "Insufficient stock. Available: " ++ toString current_stock), products)
    else
      ((true, "Stock reduced. Remaining: " ++ toString (current_stock - quantity)),
        update_first products pid (fun p => { p with quantity := current_stock - quantity }))

/- The stock-reduction loop of checkout: applies reduce_stock to each cart
line in order, stopping at the first failure (each reduce_stock call saves
its result, so decrements applied before a failure remain applied). -/
def reduce_all : List CartLine → List Product → (Bool × String) × List Product
  | [], products => ((true, ""), products)
  | item :: rest, products =>
    let r := reduce_stock products item.id item.qty
    if r.1.1 then reduce_all rest r.2
    else ((false, r.1.2), r.2)

/- The stock-validation loop of checkout: one error string per failing cart
line, in cart order. -/
def stock_errors_of (products : List Product) (cart_items : List CartLine) : List String :=
  cart_items.filterMap (fun item =>
    let r := check_stock_availability products item.id item.qty
    if r.1 then none
    else
      let product_name :=
        match get_product_by_id products item.id with
        | some product => product.name
        | none => "Unknown Product"
      some (product_name ++ ": " ++ r.2))

/- POST /api/cart/checkout of store.py.  Returns ((ok, errors), products).
The random order id, the WhatsApp message formatting and the WhatsApp URL
are presentation-only and not modelled; whatsapp_phone is the configured
setting and customer_name the raw payload field (stripped on entry, as in
the handler). -/
def checkout (whatsapp_phone customer_name_raw : String) (cart_items : List CartLine)
    (products : List Product) : (Bool × List String) × List Product :=
  let customer_name := pyStrip customer_name_raw
  if whatsapp_phone != "" && customer_name == "" then
    ((false, ["Customer name is required for WhatsApp checkout"]), products)
  else
    let stock_errors := stock_errors_of products cart_items
    if stock_errors.isEmpty then
      let r := reduce_all cart_items products
      if r.1.1 then ((true, []), r.2)
      else ((false, ["Stock reduction failed: " ++ r.1.2]), r.2)
    else
      ((false, stock_errors), products)

end Store

namespace SupabaseHelpers

/- The quantity computation of change_item_quantity in supabase_helpers.py:
new_quantity = max(0, current_quantity + int(delta)).  The surrounding
Supabase read/update and cache refresh are I/O plumbing and are elided; the
function is modelled on the quantity it reads and the value it writes. -/
def change_item_quantity (current_quantity : Int) (delta : Int) : Int :=
  max 0 (current_quantity + delta)

end SupabaseHelpers

namespace Store

/- Supporting lemmas about update_first, reduce_stock, reduce_all and
checkout, used by the claim theorems below. -/

theorem mem_update_first {pid : String} {f : Product → Product} :
    ∀ {products : List Product} {x : Product}, x ∈ update_first products pid f →
      x ∈ products ∨ ∃ y ∈ products, x = f y := by
  intro products
  induction products with
  | nil => intro x hx; simp [update_first] at hx
  | cons p rest ih =>
    intro x hx
    by_cases hp : (p.id == pid) = true
    · rw [update_first, if_pos hp] at hx
      rcases List.mem_cons.mp hx with h | h
      · exact Or.inr ⟨p, List.mem_cons_self _ _, h⟩
      · exact Or.inl (List.mem_cons_of_mem _ h)
    · rw [update_first, if_neg hp] at hx
      rcases List.mem_cons.mp hx with h | h
      · exact Or.inl (h ▸ List.mem_cons_self _ _)
      · rcases ih h with h2 | ⟨y, hy, hxy⟩
        · exact Or.inl (List.mem_cons_of_mem _ h2)
        · exact Or.inr ⟨y, List.mem_cons_of_mem _ hy, hxy⟩

theorem get_update_first_self {pid : String} {f : Product → Product}
    (hf : ∀ y, (f y).id = y.id) :
    ∀ {products : List Product} {a : Product},
      get_product_by_id products pid = some a →
      get_product_by_id (update_first products pid f) pid = some (f a) := by
  intro products
  induction products with
  | nil => intro a ha; simp [get_product_by_id] at ha
  | cons p rest ih =>
    intro a ha
    by_cases hp : (p.id == pid) = true
    · rw [get_product_by_id, if_pos hp] at ha
      injection ha with ha
      subst ha
      have hfp : ((f p).id == pid) = true := by rw [hf p]; exact hp
      rw [update_first, if_pos hp, get_product_by_id, if_pos hfp]
    · rw [get_product_by_id, if_neg hp] at ha
      rw [update_first, if_neg hp, get_product_by_id, if_neg hp]
      exact ih ha

theorem get_update_first_other {pid pid2 : String} {f : Product → Product}
    (hf : ∀ y, (f y).id = y.id) (hne : pid2 ≠ pid) :
    ∀ {products : List Product},
      get_product_by_id (update_first products pid f) pid2
        = get_product_by_id products pid2 := by
  intro products
  induction products with
  | nil => rfl
  | cons p rest ih =>
    by_cases hp : (p.id == pid) = true
    · have hpid : p.id = pid := by simpa using hp
      have h1 : ¬(((f p).id == pid2) = true) := by
        rw [hf p, hpid]
        simp
        exact Ne.symm hne
      have h2 : ¬((p.id == pid2) = true) := by
        rw [hpid]
        simp
        exact Ne.symm hne
      rw [update_first, if_pos hp, get_product_by_id, if_neg h1,
        get_product_by_id, if_neg h2]
    · by_cases hq : (p.id == pid2) = true
      · rw [update_first, if_neg hp, get_product_by_id, if_pos hq,
          get_product_by_id, if_pos hq]
      · rw [update_first, if_neg hp, get_product_by_id, if_neg hq,
          get_product_by_id, if_neg hq]
        exact ih

theorem reduce_stock_success_spec {products : List Product} {pid : String} {quantity : Int}
    (h : (reduce_stock products pid quantity).1.1 = true) :
    ∃ product, get_product_by_id products pid = some product ∧
      quantity ≤ product.quantity ∧
      get_product_by_id (reduce_stock products pid quantity).2 pid
        = some { product with quantity := product.quantity - quantity } ∧
      ∀ pid2, pid2 ≠ pid →
        get_product_by_id (reduce_stock products pid quantity).2 pid2
          = get_product_by_id products pid2 := by
  cases hfind : get_product_by_id products pid with
  | none =>
    simp only [reduce_stock, hfind] at h
    exact Bool.noConfusion h
  | some product =>
    by_cases hlt : product.quantity < quantity
    · simp only [reduce_stock, hfind, if_pos hlt] at h
      exact Bool.noConfusion h
    · refine ⟨product, rfl, not_lt.mp hlt, ?_, ?_⟩
      · simp only [reduce_stock, hfind, if_neg hlt]
        exact @get_update_first_self pid
          (fun p => { p with quantity := product.quantity - quantity })
          (fun y => rfl) products product hfind
      · intro pid2 hne
        simp only [reduce_stock, hfind, if_neg hlt]
        exact @get_update_first_other pid pid2
          (fun p => { p with quantity := product.quantity - quantity })
          (fun y => rfl) hne products

theorem reduce_stock_nonneg {products : List Product} {pid : String} {quantity : Int}
    (hnn : ∀ p ∈ products, 0 ≤ p.quantity) :
    ∀ p ∈ (reduce_stock products pid quantity).2, 0 ≤ p.quantity := by
  intro p hp
  cases hfind : get_product_by_id products pid with
  | none =>
    simp only [reduce_stock, hfind] at hp
    exact hnn p hp
  | some product =>
    by_cases hlt : product.quantity < quantity
    · simp only [reduce_stock, hfind, if_pos hlt] at hp
      exact hnn p hp
    · simp only [reduce_stock, hfind, if_neg hlt] at hp
      rcases mem_update_first hp with h | ⟨y, hy, rfl⟩
      · exact hnn p h
      · simpa using sub_nonneg.mpr (not_lt.mp hlt)

theorem reduce_all_nonneg :
    ∀ (lines : List CartLine) (products : List Product),
      (∀ p ∈ products, 0 ≤ p.quantity) →
      ∀ p ∈ (reduce_all lines products).2, 0 ≤ p.quantity := by
  intro lines
  induction lines with
  | nil =>
    intro products h p hp
    simp only [reduce_all] at hp
    exact h p hp
  | cons item rest ih =>
    intro products h p hp
    simp only [reduce_all] at hp
    by_cases hr : (reduce_stock products item.id item.qty).1.1 = true
    · rw [if_pos hr] at hp
      exact ih _ (reduce_stock_nonneg h) p hp
    · rw [if_neg hr] at hp
      exact reduce_stock_nonneg h p hp

theorem reduce_all_unchanged :
    ∀ (lines : List CartLine) (products : List Product) (pid : String),
      (reduce_all lines products).1.1 = true →
      pid ∉ lines.map (fun l => l.id) →
      get_product_by_id (reduce_all lines products).2 pid
        = get_product_by_id products pid := by
  intro lines
  induction lines with
  | nil => intro products pid h hmem; rfl
  | cons item rest ih =>
    intro products pid h hmem
    simp only [List.map_cons, List.mem_cons, not_or] at hmem
    obtain ⟨hne, hrest⟩ := hmem
    by_cases hr : (reduce_stock products item.id item.qty).1.1 = true
    · obtain ⟨product, hfind, hle, hself, hother⟩ := reduce_stock_success_spec hr
      have hstep : reduce_all (item :: rest) products
          = reduce_all rest (reduce_stock products item.id item.qty).2 := by
        simp only [reduce_all, if_pos hr]
      rw [hstep] at h ⊢
      rw [ih _ _ h hrest, hother pid hne]
    · have hfalse : (reduce_all (item :: rest) products).1.1 = false := by
        simp only [reduce_all, if_neg hr]
      rw [hfalse] at h
      cases h

theorem reduce_all_decrement :
    ∀ (lines : List CartLine) (products : List Product),
      (reduce_all lines products).1.1 = true →
      (lines.map (fun l => l.id)).Nodup →
      ∀ l ∈ lines, ∀ p, get_product_by_id products l.id = some p →
        get_product_by_id (reduce_all lines products).2 l.id
          = some { p with quantity := p.quantity - l.qty } := by
  intro lines
  induction lines with
  | nil => intro products h hnd l hl; cases hl
  | cons item rest ih =>
    intro products h hnd l hl p hp
    rw [List.map_cons, List.nodup_cons] at hnd
    obtain ⟨hnotin, hndrest⟩ := hnd
    by_cases hr : (reduce_stock products item.id item.qty).1.1 = true
    · obtain ⟨product, hfind, hle, hself, hother⟩ := reduce_stock_success_spec hr
      have hstep : reduce_all (item :: rest) products
          = reduce_all rest (reduce_stock products item.id item.qty).2 := by
        simp only [reduce_all, if_pos hr]
      rw [hstep] at h ⊢
      rcases List.mem_cons.mp hl with rfl | hlrest
      · have hpprod : product = p := by
          rw [hp] at hfind
          injection hfind with hv
          exact hv.symm
        subst hpprod
        rw [reduce_all_unchanged rest _ _ h hnotin, hself]
      · have hne : l.id ≠ item.id := by
          intro he
          exact hnotin (he ▸ List.mem_map_of_mem (fun x => x.id) hlrest)
        have hp1 : get_product_by_id (reduce_stock products item.id item.qty).2 l.id
            = some p := by
          rw [hother l.id hne, hp]
        exact ih _ h hndrest l hlrest p hp1
    · have hfalse : (reduce_all (item :: rest) products).1.1 = false := by
        simp only [reduce_all, if_neg hr]
      rw [hfalse] at h
      cases h

theorem checkout_success_spec {wp cn : String} {cart : List CartLine}
    {products : List Product}
    (h : (checkout wp cn cart products).1.1 = true) :
    (reduce_all cart products).1.1 = true ∧
    (checkout wp cn cart products).2 = (reduce_all cart products).2 ∧
    (stock_errors_of products cart).isEmpty = true := by
  by_cases h1 : (wp != "" && pyStrip cn == "") = true
  · simp only [checkout, h1, if_true] at h
    exact Bool.noConfusion h
  · rw [Bool.not_eq_true] at h1
    by_cases h2 : (stock_errors_of products cart).isEmpty = true
    · by_cases h3 : (reduce_all cart products).1.1 = true
      · refine ⟨h3, ?_, h2⟩
        simp only [checkout, h1, Bool.false_eq_true, if_false, h2, if_true, h3]
      · rw [Bool.not_eq_true] at h3
        simp only [checkout, h1, Bool.false_eq_true, if_false, h2, if_true, h3] at h
    · rw [Bool.not_eq_true] at h2
      simp only [checkout, h1, Bool.false_eq_true, if_false, h2] at h

theorem checkout_post_cases (wp cn : String) (cart : List CartLine)
    (products : List Product) :
    (checkout wp cn cart products).2 = products ∨
    (checkout wp cn cart products).2 = (reduce_all cart products).2 := by
  by_cases h1 : (wp != "" && pyStrip cn == "") = true
  · left
    simp only [checkout, h1, if_true]
  · rw [Bool.not_eq_true] at h1
    by_cases h2 : (stock_errors_of products cart).isEmpty = true
    · by_cases h3 : (reduce_all cart products).1.1 = true
      · right
        simp only [checkout, h1, Bool.false_eq_true, if_false, h2, if_true, h3]
      · right
        simp only [checkout, h1, Bool.false_eq_true, if_false, h2, if_true, h3,
          Bool.not_eq_true, if_false]
    · rw [Bool.not_eq_true] at h2
      left
      simp only [checkout, h1, Bool.false_eq_true, if_false, h2]

theorem checkout_stock_error_spec {wp cn : String} {cart : List CartLine}
    {products : List Product}
    (h1 : (wp != "" && pyStrip cn == "") = false)
    (h2 : stock_errors_of products cart ≠ []) :
    checkout wp cn cart products = ((false, stock_errors_of products cart), products) := by
  have h2b : (stock_errors_of products cart).isEmpty = false := by
    cases he : stock_errors_of products cart with
    | nil => exact absurd he h2
    | cons a l => rfl
  simp only [checkout, h1, Bool.false_eq_true, if_false, h2b]

theorem check_fails_of_exceeds {products : List Product} {pid : String} {qty : Int}
    {p : Product} (hfind : get_product_by_id products pid = some p)
    (hqty : p.quantity < qty) :
    (check_stock_availability products pid qty).1 = false := by
  by_cases hz : p.quantity ≤ 0
  · simp only [check_stock_availability, hfind, if_pos hz]
  · have hgt : qty > p.quantity := hqty
    simp only [check_stock_availability, hfind, if_neg hz, if_pos hgt]

theorem mem_stock_errors {products : List Product} {cart : List CartLine}
    {line : CartLine} (hline : line ∈ cart)
    (hfail : (check_stock_availability products line.id line.qty).1 = false) :
    ((match get_product_by_id products line.id with
      | some product => product.name
      | none => "Unknown Product")
      ++ ": " ++ (check_stock_availability products line.id line.qty).2)
      ∈ stock_errors_of products cart := by
  unfold stock_errors_of
  apply List.mem_filterMap.mpr
  refine ⟨line, hline, ?_⟩
  simp only [hfail, Bool.false_eq_true, if_false]

end Store

namespace App

/- Supporting lemmas about the session cart, cart totals and the order
endpoints. -/

theorem cartGet_cartSet_self (c : Cart) (pid : Nat) (q : Int) :
    cartGet (cartSet c pid q) pid = q := by
  induction c with
  | nil => simp [cartSet, cartGet]
  | cons e rest ih =>
    by_cases he : (e.1 == pid) = true
    · rw [cartSet, if_pos he, cartGet, if_pos (by simp)]
    · rw [cartSet, if_neg he, cartGet, if_neg he]
      exact ih

theorem mem_cartSet :
    ∀ {c : Cart} {pid : Nat} {q : Int} {x : Nat × Int},
      x ∈ cartSet c pid q → x = (pid, q) ∨ x ∈ c := by
  intro c pid q
  induction c with
  | nil =>
    intro x hx
    rw [cartSet] at hx
    exact Or.inl (List.mem_singleton.mp hx)
  | cons e rest ih =>
    intro x hx
    by_cases he : (e.1 == pid) = true
    · rw [cartSet, if_pos he] at hx
      rcases List.mem_cons.mp hx with h | h
      · exact Or.inl h
      · exact Or.inr (List.mem_cons_of_mem _ h)
    · rw [cartSet, if_neg he] at hx
      rcases List.mem_cons.mp hx with h | h
      · exact Or.inr (h ▸ List.mem_cons_self _ _)
      · rcases ih h with h2 | h2
        · exact Or.inl h2
        · exact Or.inr (List.mem_cons_of_mem _ h2)

theorem cartGet_nonneg :
    ∀ {c : Cart}, (∀ e ∈ c, 0 < e.2) → ∀ pid, 0 ≤ cartGet c pid := by
  intro c
  induction c with
  | nil => intro hinv pid; simp [cartGet]
  | cons e rest ih =>
    intro hinv pid
    by_cases he : (e.1 == pid) = true
    · rw [cartGet, if_pos he]
      exact le_of_lt (hinv e (List.mem_cons_self _ _))
    · rw [cartGet, if_neg he]
      exact ih (fun x hx => hinv x (List.mem_cons_of_mem _ hx)) pid

theorem api_cart_add_some {catalog : List Product} {c : Cart} {pid : Nat} {qty : Int}
    {c2 : Cart} (h : api_cart_add catalog c pid qty = some c2) :
    c2 = cartSet c pid (cartGet c pid + max 1 qty) := by
  cases hfind : getProduct catalog pid with
  | none =>
    simp only [api_cart_add, hfind] at h
    exact Option.noConfusion h
  | some p =>
    by_cases ha : p.is_active = true
    · simp only [api_cart_add, hfind, ha, if_true] at h
      injection h with h
      exact h.symm
    · rw [Bool.not_eq_true] at ha
      simp only [api_cart_add, hfind, ha, Bool.false_eq_true, if_false] at h
      exact Option.noConfusion h

theorem applyCartOp_inv :
    ∀ (c : Cart), (∀ e ∈ c, 0 < e.2) → ∀ (op : CartOp),
      ∀ e ∈ applyCartOp c op, 0 < e.2 := by
  intro c hinv op
  cases op with
  | add catalog pid qty =>
    cases hadd : api_cart_add catalog c pid qty with
    | none =>
      simp only [applyCartOp, hadd]
      exact hinv
    | some c2 =>
      simp only [applyCartOp, hadd]
      rw [api_cart_add_some hadd]
      intro e he
      rcases mem_cartSet he with rfl | h
      · show 0 < cartGet c pid + max 1 qty
        have h0 : 0 ≤ cartGet c pid := cartGet_nonneg hinv pid
        have h1 : (1 : Int) ≤ max 1 qty := le_max_left 1 qty
        linarith
      · exact hinv e h
  | update pid qty =>
    simp only [applyCartOp, api_cart_update]
    by_cases hq : qty ≤ 0
    · rw [if_pos hq]
      intro e he
      exact hinv e (List.mem_of_mem_filter he)
    · rw [if_neg hq]
      intro e he
      rcases mem_cartSet he with rfl | h
      · exact not_le.mp hq
      · exact hinv e h
  | remove pid =>
    simp only [applyCartOp, api_cart_remove]
    intro e he
    exact hinv e (List.mem_of_mem_filter he)

theorem applyCartOps_inv :
    ∀ (ops : List CartOp) (c : Cart), (∀ e ∈ c, 0 < e.2) →
      ∀ e ∈ applyCartOps ops c, 0 < e.2 := by
  intro ops
  induction ops with
  | nil => intro c hinv; exact hinv
  | cons op rest ih =>
    intro c hinv
    exact ih _ (applyCartOp_inv c hinv op)

theorem getProduct_some_id :
    ∀ {catalog : List Product} {pid : Nat} {p : Product},
      getProduct catalog pid = some p → p.id = pid := by
  intro catalog
  induction catalog with
  | nil => intro pid p h; simp [getProduct] at h
  | cons q rest ih =>
    intro pid p h
    by_cases hq : (q.id == pid) = true
    · rw [getProduct, if_pos hq] at h
      injection h with h
      subst h
      simpa using hq
    · rw [getProduct, if_neg hq] at h
      exact ih h

theorem total_eq_sum :
    ∀ (catalog : List Product) (c : Cart),
      (cart_items_and_total catalog c).2
        = (c.filterMap (fun e => (getProduct catalog e.1).map
            (fun p => p.price * (e.2 : Rat)))).sum := by
  intro catalog c
  induction c with
  | nil => simp [cart_items_and_total]
  | cons e rest ih =>
    cases hfind : getProduct catalog e.1 with
    | none =>
      simp only [cart_items_and_total, hfind, List.filterMap_cons, Option.map_none']
      exact ih
    | some p =>
      simp only [cart_items_and_total, hfind, List.filterMap_cons, Option.map_some',
        List.sum_cons]
      rw [ih]

theorem mem_items_spec :
    ∀ (catalog : List Product) (c : Cart),
      ∀ it ∈ (cart_items_and_total catalog c).1,
        ∃ p, getProduct catalog it.id = some p ∧ it.price = p.price ∧ it.name = p.name := by
  intro catalog c
  induction c with
  | nil => intro it hit; simp [cart_items_and_total] at hit
  | cons e rest ih =>
    intro it hit
    cases hfind : getProduct catalog e.1 with
    | none =>
      simp only [cart_items_and_total, hfind] at hit
      exact ih it hit
    | some p =>
      simp only [cart_items_and_total, hfind] at hit
      rcases List.mem_cons.mp hit with rfl | h
      · refine ⟨p, ?_, rfl, rfl⟩
        show getProduct catalog p.id = some p
        rw [getProduct_some_id hfind]
        exact hfind
      · exact ih it h

theorem api_order_generic_cases (pm st : String) (info : CustomerInfo)
    (persistOk : Bool) (s : AppState) :
    (api_order_generic pm st info persistOk s
        = (.ok s.orders.length,
            { s with orders := s.orders ++ [order_of pm st info s], cart := [] })
      ∧ respOk (api_order_generic pm st info persistOk s).1 = true)
    ∨ (respOk (api_order_generic pm st info persistOk s).1 = false
      ∧ (api_order_generic pm st info persistOk s).2 = s) := by
  by_cases h1 : (pyStrip info.name == "" || pyStrip info.email == "" ||
      pyStrip info.phone == "" || pyStrip info.address == "") = true
  · right
    constructor <;>
      simp only [api_order_generic, h1, if_true, respOk]
  · rw [Bool.not_eq_true] at h1
    by_cases h2 : (cart_items_and_total s.catalog s.cart).1.isEmpty = true
    · right
      constructor <;>
        simp only [api_order_generic, h1, Bool.false_eq_true, if_false, h2, if_true, respOk]
    · rw [Bool.not_eq_true] at h2
      by_cases h3 : persistOk = true
      · left
        constructor <;>
          simp only [api_order_generic, h1, Bool.false_eq_true, if_false, h2, h3,
            if_true, respOk]
      · right
        rw [Bool.not_eq_true] at h3
        constructor <;>
          simp only [api_order_generic, h1, Bool.false_eq_true, if_false, h2, h3, respOk]

theorem api_order_generic_empty_cart (pm st : String) (info : CustomerInfo)
    (persistOk : Bool) (s : AppState) (hcart : s.cart = [])
    (hname : (pyStrip info.name == "") = false)
    (hemail : (pyStrip info.email == "") = false)
    (hphone : (pyStrip info.phone == "") = false)
    (haddr : (pyStrip info.address == "") = false) :
    api_order_generic pm st info persistOk s = (.error "Cart is empty.", s) := by
  have hcond : (pyStrip info.name == "" || pyStrip info.email == "" ||
      pyStrip info.phone == "" || pyStrip info.address == "") = false := by
    rw [hname, hemail, hphone, haddr]
    rfl
  have hempty : (cart_items_and_total s.catalog s.cart).1.isEmpty = true := by
    rw [hcart]
    rfl
  simp only [api_order_generic, hcond, Bool.false_eq_true, if_false, hempty, if_true]

end App

/-- C1: a checkout request containing at least one line whose requested
quantity exceeds the current stock of its product fails as a whole (no
stock is touched), and the returned error list is exactly the
stock-validation error list, which names every offending line. -/
theorem c1_insufficient_stock_fails_whole_checkout
    (wp cn : String) (cart : List Store.CartLine) (products : List Store.Product)
    (hname : (wp != "" && pyStrip cn == "") = false)
    (hex : ∃ line ∈ cart, ∃ p, Store.get_product_by_id products line.id = some p ∧
      p.quantity < line.qty) :
    (Store.checkout wp cn cart products).1.1 = false ∧
    (Store.checkout wp cn cart products).2 = products ∧
    (Store.checkout wp cn cart products).1.2 = Store.stock_errors_of products cart ∧
    ∀ line ∈ cart, (Store.check_stock_availability products line.id line.qty).1 = false →
      ((match Store.get_product_by_id products line.id with
        | some product => product.name
        | none => "Unknown Product")
        ++ ": " ++ (Store.check_stock_availability products line.id line.qty).2)
        ∈ (Store.checkout wp cn cart products).1.2 := by
  obtain ⟨line, hline, p, hfind, hqty⟩ := hex
  have hfail := Store.check_fails_of_exceeds hfind hqty
  have hmem := Store.mem_stock_errors hline hfail
  have hne : Store.stock_errors_of products cart ≠ [] := List.ne_nil_of_mem hmem
  have heq := Store.checkout_stock_error_spec hname hne
  rw [heq]
  refine ⟨rfl, rfl, rfl, ?_⟩
  intro line2 hline2 hfail2
  exact Store.mem_stock_errors hline2 hfail2

/-- Witness for C1 at the spec scenario: product a has stock 5 and product
b stock 0; a cart requesting 2 of a and 1 of b fails, names b, and leaves
both stocks unchanged. -/
theorem c1_witness :
    (Store.checkout "" "Guy"
      [⟨"a", 2, "A", 12⟩, ⟨"b", 1, "B", 3⟩]
      [⟨"a", "A", some 12, 5⟩, ⟨"b", "B", some 3, 0⟩]).1.1 = false ∧
    (Store.checkout "" "Guy"
      [⟨"a", 2, "A", 12⟩, ⟨"b", 1, "B", 3⟩]
      [⟨"a", "A", some 12, 5⟩, ⟨"b", "B", some 3, 0⟩]).2
      = [⟨"a", "A", some 12, 5⟩, ⟨"b", "B", some 3, 0⟩] ∧
    "B: Product is out of stock" ∈
      (Store.checkout "" "Guy"
        [⟨"a", 2, "A", 12⟩, ⟨"b", 1, "B", 3⟩]
        [⟨"a", "A", some 12, 5⟩, ⟨"b", "B", some 3, 0⟩]).1.2 := by
  obtain ⟨h1, h2, h3, h4⟩ := c1_insufficient_stock_fails_whole_checkout "" "Guy"
    [⟨"a", 2, "A", 12⟩, ⟨"b", 1, "B", 3⟩]
    [⟨"a", "A", some 12, 5⟩, ⟨"b", "B", some 3, 0⟩]
    (by decide)
    ⟨⟨"b", 1, "B", 3⟩, by decide, ⟨"b", "B", some 3, 0⟩, by decide, by decide⟩
  refine ⟨h1, h2, ?_⟩
  have h5 := h4 ⟨"b", 1, "B", 3⟩ (by decide) (by decide)
  exact h5

/-- C2: stock can never be driven negative by the stock-mutating
operations: a successful reduce_stock leaves the product with a
non-negative quantity (it refuses any larger decrement),
change_item_quantity clamps at zero, and checkout preserves
non-negativity of every stock quantity. -/
theorem c2_stock_never_negative :
    (∀ products pid quantity p,
      (Store.reduce_stock products pid quantity).1.1 = true →
      Store.get_product_by_id (Store.reduce_stock products pid quantity).2 pid = some p →
      0 ≤ p.quantity) ∧
    (∀ current_quantity delta,
      0 ≤ SupabaseHelpers.change_item_quantity current_quantity delta) ∧
    (∀ wp cn cart products, (∀ p ∈ products, 0 ≤ p.quantity) →
      ∀ p ∈ (Store.checkout wp cn cart products).2, 0 ≤ p.quantity) := by
  refine ⟨?_, ?_, ?_⟩
  · intro products pid quantity p hsucc hget
    obtain ⟨product, hfind, hle, hself, hother⟩ := Store.reduce_stock_success_spec hsucc
    rw [hself] at hget
    injection hget with hv
    subst hv
    exact sub_nonneg.mpr hle
  · intro current_quantity delta
    exact le_max_left 0 _
  · intro wp cn cart products hnn p hp
    rcases Store.checkout_post_cases wp cn cart products with he | he
    · rw [he] at hp
      exact hnn p hp
    · rw [he] at hp
      exact Store.reduce_all_nonneg cart products hnn p hp

/-- Witness for C2: a successful decrement of 2 from stock 5 leaves 3,
change_item_quantity clamps 5 + (-9) to 0, and a successful checkout
leaves a non-negative stock. -/
theorem c2_witness :
    (0 : Int) ≤ (Store.Product.mk "a" "A" none 3).quantity ∧
    (0 : Int) ≤ SupabaseHelpers.change_item_quantity 5 (-9) ∧
    (0 : Int) ≤ (Store.Product.mk "a" "A" none 1).quantity := by
  refine ⟨?_, c2_stock_never_negative.2.1 5 (-9), ?_⟩
  · exact c2_stock_never_negative.1 [⟨"a", "A", none, 5⟩] "a" 2
      ⟨"a", "A", none, 3⟩ (by decide) (by decide)
  · exact c2_stock_never_negative.2.2 "" "x" [⟨"a", 4, "A", 1⟩] [⟨"a", "A", none, 5⟩]
      (by decide) ⟨"a", "A", none, 1⟩ (by decide)

/-- C3: when checkout succeeds on a cart whose lines reference pairwise
distinct products, the stock of the product of each line ends exactly at
its pre-checkout quantity minus the requested quantity of that line (and nothing
else about the product changes). -/
theorem c3_success_decrements_each_line
    (wp cn : String) (cart : List Store.CartLine) (products : List Store.Product)
    (hnd : (cart.map (fun l => l.id)).Nodup)
    (hok : (Store.checkout wp cn cart products).1.1 = true) :
    ∀ line ∈ cart, ∀ p, Store.get_product_by_id products line.id = some p →
      Store.get_product_by_id (Store.checkout wp cn cart products).2 line.id
        = some { p with quantity := p.quantity - line.qty } := by
  obtain ⟨hra, hpost, hrest⟩ := Store.checkout_success_spec hok
  intro line hline p hp
  rw [hpost]
  exact Store.reduce_all_decrement cart products hra hnd line hline p hp

/-- Witness for C3 at the spec scenario: stock 5, requested 2, the
checkout succeeds and stock becomes 3. -/
theorem c3_witness :
    Store.get_product_by_id
      (Store.checkout "" "x" [⟨"a", 2, "A", 12⟩] [⟨"a", "A", some 12, 5⟩]).2 "a"
      = some ⟨"a", "A", some 12, 3⟩ := by
  have h := c3_success_decrements_each_line "" "x" [⟨"a", 2, "A", 12⟩]
    [⟨"a", "A", some 12, 5⟩] (by decide) (by decide)
    ⟨"a", 2, "A", 12⟩ (by decide) ⟨"a", "A", some 12, 5⟩ (by decide)
  exact h

/-- C4 counterexample: the store.py checkout entry point does not fail on
an empty cart: with no WhatsApp number configured it reports success
(ok = true) instead of an empty-cart error. -/
theorem c4_counterexample_empty_cart_checkout_succeeds :
    (Store.checkout "" "" [] [⟨"a", "A", some 12, 5⟩]).1.1 = true := by
  decide

/-- C4 (amended): the two app.py checkout entry points, given non-blank
customer information, reject an empty cart with the empty-cart error and
no side effect (no order is created, the state is unchanged); the store.py
checkout endpoint does not reject an empty cart, though it changes no
stock there. -/
theorem c4_empty_cart_amended (info : App.CustomerInfo) (persistOk : Bool)
    (s : App.AppState) (hcart : s.cart = [])
    (hname : (pyStrip info.name == "") = false)
    (hemail : (pyStrip info.email == "") = false)
    (hphone : (pyStrip info.phone == "") = false)
    (haddr : (pyStrip info.address == "") = false) :
    App.api_order_paypal info persistOk s = (.error "Cart is empty.", s) ∧
    App.api_order_mmg info persistOk s = (.error "Cart is empty.", s) ∧
    ∀ wp cn products, (Store.checkout wp cn [] products).2 = products := by
  refine ⟨App.api_order_generic_empty_cart "paypal" "paid" info persistOk s
      hcart hname hemail hphone haddr,
    App.api_order_generic_empty_cart "mmg" "pending" info persistOk s
      hcart hname hemail hphone haddr, ?_⟩
  intro wp cn products
  rcases Store.checkout_post_cases wp cn [] products with h | h
  · exact h
  · rw [h]
    rfl

/-- Witness for C4 (amended): the MMG endpoint on a session with an empty
cart and complete customer information returns the empty-cart error and
leaves the state unchanged. -/
theorem c4_witness :
    App.api_order_mmg ⟨"N", "E", "P", "A"⟩ true ⟨[], [], []⟩
      = (.error "Cart is empty.", ⟨[], [], []⟩) :=
  (c4_empty_cart_amended ⟨"N", "E", "P", "A"⟩ true ⟨[], [], []⟩ rfl
    (by decide) (by decide) (by decide) (by decide)).2.1

/-- C6: for both app.py order endpoints, the session cart is cleared
exactly when the checkout succeeds: a success leaves the session cart
empty, and any failure (missing information, empty cart, or failed
persistence) leaves the whole state, cart included, unchanged. -/
theorem c6_cart_cleared_iff_success (info : App.CustomerInfo) (persistOk : Bool)
    (s : App.AppState) :
    (App.respOk (App.api_order_paypal info persistOk s).1 = true →
      (App.api_order_paypal info persistOk s).2.cart = []) ∧
    (App.respOk (App.api_order_paypal info persistOk s).1 = false →
      (App.api_order_paypal info persistOk s).2 = s) ∧
    (App.respOk (App.api_order_mmg info persistOk s).1 = true →
      (App.api_order_mmg info persistOk s).2.cart = []) ∧
    (App.respOk (App.api_order_mmg info persistOk s).1 = false →
      (App.api_order_mmg info persistOk s).2 = s) := by
  have hp := App.api_order_generic_cases "paypal" "paid" info persistOk s
  have hm := App.api_order_generic_cases "mmg" "pending" info persistOk s
  refine ⟨?_, ?_, ?_, ?_⟩ <;> intro h
  · rcases hp with ⟨heq, hok⟩ | ⟨hok, hst⟩
    · show (App.api_order_generic "paypal" "paid" info persistOk s).2.cart = []
      rw [heq]
    · rw [show App.respOk (App.api_order_paypal info persistOk s).1
          = App.respOk (App.api_order_generic "paypal" "paid" info persistOk s).1
          from rfl, hok] at h
      exact Bool.noConfusion h
  · rcases hp with ⟨heq, hok⟩ | ⟨hok, hst⟩
    · rw [show App.respOk (App.api_order_paypal info persistOk s).1
          = App.respOk (App.api_order_generic "paypal" "paid" info persistOk s).1
          from rfl, hok] at h
      exact Bool.noConfusion h
    · exact hst
  · rcases hm with ⟨heq, hok⟩ | ⟨hok, hst⟩
    · show (App.api_order_generic "mmg" "pending" info persistOk s).2.cart = []
      rw [heq]
    · rw [show App.respOk (App.api_order_mmg info persistOk s).1
          = App.respOk (App.api_order_generic "mmg" "pending" info persistOk s).1
          from rfl, hok] at h
      exact Bool.noConfusion h
  · rcases hm with ⟨heq, hok⟩ | ⟨hok, hst⟩
    · rw [show App.respOk (App.api_order_mmg info persistOk s).1
          = App.respOk (App.api_order_generic "mmg" "pending" info persistOk s).1
          from rfl, hok] at h
      exact Bool.noConfusion h
    · exact hst

/-- Witness for C6: a successful MMG checkout on a one-line cart clears
the cart; the same checkout with a failed commit leaves the state
unchanged. -/
theorem c6_witness :
    (App.api_order_mmg ⟨"N", "E", "P", "A"⟩ true
      ⟨[⟨1, "A", 10, "", "", true⟩], [(1, 2)], []⟩).2.cart = [] ∧
    (App.api_order_mmg ⟨"N", "E", "P", "A"⟩ false
      ⟨[⟨1, "A", 10, "", "", true⟩], [(1, 2)], []⟩).2
      = ⟨[⟨1, "A", 10, "", "", true⟩], [(1, 2)], []⟩ := by
  constructor
  · exact (c6_cart_cleared_iff_success ⟨"N", "E", "P", "A"⟩ true
      ⟨[⟨1, "A", 10, "", "", true⟩], [(1, 2)], []⟩).2.2.1 (by decide)
  · exact (c6_cart_cleared_iff_success ⟨"N", "E", "P", "A"⟩ false
      ⟨[⟨1, "A", 10, "", "", true⟩], [(1, 2)], []⟩).2.2.2 (by decide)

/-- C7: every successful checkout appends exactly one order, whose status
is determined by the entry point: the MMG (cash/manual) endpoint creates
it with status pending and payment_method mmg, and the PayPal endpoint
with status paid and payment_method paypal. -/
theorem c7_order_status_by_entry_point (info : App.CustomerInfo) (persistOk : Bool)
    (s : App.AppState) :
    (App.respOk (App.api_order_mmg info persistOk s).1 = true →
      (App.api_order_mmg info persistOk s).2.orders
        = s.orders ++ [App.order_of "mmg" "pending" info s] ∧
      (App.order_of "mmg" "pending" info s).status = "pending" ∧
      (App.order_of "mmg" "pending" info s).payment_method = "mmg") ∧
    (App.respOk (App.api_order_paypal info persistOk s).1 = true →
      (App.api_order_paypal info persistOk s).2.orders
        = s.orders ++ [App.order_of "paypal" "paid" info s] ∧
      (App.order_of "paypal" "paid" info s).status = "paid" ∧
      (App.order_of "paypal" "paid" info s).payment_method = "paypal") := by
  constructor <;> intro h
  · rcases App.api_order_generic_cases "mmg" "pending" info persistOk s with
      ⟨heq, hok⟩ | ⟨hok, hst⟩
    · refine ⟨?_, rfl, rfl⟩
      show (App.api_order_generic "mmg" "pending" info persistOk s).2.orders = _
      rw [heq]
    · rw [show App.respOk (App.api_order_mmg info persistOk s).1
          = App.respOk (App.api_order_generic "mmg" "pending" info persistOk s).1
          from rfl, hok] at h
      exact Bool.noConfusion h
  · rcases App.api_order_generic_cases "paypal" "paid" info persistOk s with
      ⟨heq, hok⟩ | ⟨hok, hst⟩
    · refine ⟨?_, rfl, rfl⟩
      show (App.api_order_generic "paypal" "paid" info persistOk s).2.orders = _
      rw [heq]
    · rw [show App.respOk (App.api_order_paypal info persistOk s).1
          = App.respOk (App.api_order_generic "paypal" "paid" info persistOk s).1
          from rfl, hok] at h
      exact Bool.noConfusion h

/-- Witness for C7: a successful MMG checkout appends exactly one pending
order. -/
theorem c7_witness :
    (App.api_order_mmg ⟨"N", "E", "P", "A"⟩ true
      ⟨[⟨1, "A", 10, "", "", true⟩], [(1, 2)], []⟩).2.orders
      = [] ++ [App.order_of "mmg" "pending" ⟨"N", "E", "P", "A"⟩
          ⟨[⟨1, "A", 10, "", "", true⟩], [(1, 2)], []⟩] ∧
    (App.order_of "mmg" "pending" ⟨"N", "E", "P", "A"⟩
      ⟨[⟨1, "A", 10, "", "", true⟩], [(1, 2)], []⟩).status = "pending" := by
  have h := (c7_order_status_by_entry_point ⟨"N", "E", "P", "A"⟩ true
    ⟨[⟨1, "A", 10, "", "", true⟩], [(1, 2)], []⟩).1 (by decide)
  exact ⟨h.1, h.2.1⟩

/-- C8: a successful checkout stores a frozen snapshot: the price and name
of each order line equal those of the product as resolved in the catalog at
the moment of checkout, the stored subtotal is the cart total at that
moment, and the later catalog mutations (price edit, product delete)
leave the order table untouched. -/
theorem c8_order_snapshot_frozen (info : App.CustomerInfo) (persistOk : Bool)
    (s : App.AppState) :
    (App.respOk (App.api_order_paypal info persistOk s).1 = true →
      (App.api_order_paypal info persistOk s).2.orders
        = s.orders ++ [App.order_of "paypal" "paid" info s] ∧
      (App.order_of "paypal" "paid" info s).subtotal
        = (App.cart_items_and_total s.catalog s.cart).2 ∧
      ∀ it ∈ (App.order_of "paypal" "paid" info s).items,
        (App.getProduct s.catalog it.id).isSome = true ∧
        ∀ p, App.getProduct s.catalog it.id = some p →
          it.price = p.price ∧ it.name = p.name) ∧
    (∀ s2 pid newPrice, (App.admin_products_edit_price s2 pid newPrice).orders
      = s2.orders) ∧
    (∀ s2 pid, (App.admin_products_delete s2 pid).orders = s2.orders) := by
  refine ⟨?_, fun s2 pid newPrice => rfl, fun s2 pid => rfl⟩
  intro h
  rcases App.api_order_generic_cases "paypal" "paid" info persistOk s with
    ⟨heq, hok⟩ | ⟨hok, hst⟩
  · refine ⟨?_, rfl, ?_⟩
    · show (App.api_order_generic "paypal" "paid" info persistOk s).2.orders = _
      rw [heq]
    · intro it hit
      rw [show (App.order_of "paypal" "paid" info s).items
          = (App.cart_items_and_total s.catalog s.cart).1.map
              (fun i => ⟨i.id, i.name, i.price, i.qty⟩) from rfl] at hit
      obtain ⟨i, hi, rfl⟩ := List.mem_map.mp hit
      obtain ⟨p, hfind, hprice, hname⟩ := App.mem_items_spec s.catalog s.cart i hi
      constructor
      · show (App.getProduct s.catalog i.id).isSome = true
        rw [hfind]
        rfl
      · intro p2 hp2
        show i.price = p2.price ∧ i.name = p2.name
        rw [show App.getProduct s.catalog i.id = some p from hfind] at hp2
        injection hp2 with hp2
        subst hp2
        exact ⟨hprice, hname⟩
  · rw [show App.respOk (App.api_order_paypal info persistOk s).1
        = App.respOk (App.api_order_generic "paypal" "paid" info persistOk s).1
        from rfl, hok] at h
    exact Bool.noConfusion h

/-- Witness for C8: a successful PayPal checkout on a one-line cart stores
the snapshot order, whose subtotal equals the cart total at checkout. -/
theorem c8_witness :
    (App.api_order_paypal ⟨"N", "E", "P", "A"⟩ true
      ⟨[⟨1, "A", 10, "", "", true⟩], [(1, 2)], []⟩).2.orders
      = [] ++ [App.order_of "paypal" "paid" ⟨"N", "E", "P", "A"⟩
          ⟨[⟨1, "A", 10, "", "", true⟩], [(1, 2)], []⟩] ∧
    (App.order_of "paypal" "paid" ⟨"N", "E", "P", "A"⟩
      ⟨[⟨1, "A", 10, "", "", true⟩], [(1, 2)], []⟩).subtotal
      = (App.cart_items_and_total [⟨1, "A", 10, "", "", true⟩] [(1, 2)]).2 := by
  have h := (c8_order_snapshot_frozen ⟨"N", "E", "P", "A"⟩ true
    ⟨[⟨1, "A", 10, "", "", true⟩], [(1, 2)], []⟩).1 (by decide)
  exact ⟨h.1, h.2.1⟩

/-- C9: the cart total is the exact sum of unit price times quantity over
the resolvable cart entries (unresolvable entries are skipped), computed
in exact rational arithmetic; in particular 10.00 x 3 + 7.50 x 2 yields
exactly 45.00. -/
theorem c9_total_exact_sum :
    (∀ (catalog : List App.Product) (c : App.Cart),
      (App.cart_items_and_total catalog c).2
        = (c.filterMap (fun e => (App.getProduct catalog e.1).map
            (fun p => p.price * (e.2 : Rat)))).sum) ∧
    (App.cart_items_and_total
      [⟨1, "A", 10, "", "", true⟩, ⟨2, "B", 15 / 2, "", "", true⟩]
      [(1, 3), (2, 2)]).2 = 45 := by
  refine ⟨App.total_eq_sum, ?_⟩
  show (10 : Rat) * 3 + ((15 / 2 : Rat) * 2 + 0) = 45
  norm_num

/-- C10: the cart add endpoint clamps the requested quantity to a minimum
of one: when the product exists and is active, the add succeeds and the
entry grows by exactly max 1 qty, so a zero or negative request adds
exactly one, and the resulting entry is at least one whenever the previous
value was non-negative. -/
theorem c10_add_clamps_quantity (catalog : List App.Product) (c : App.Cart)
    (product_id : Nat) (qty : Int) (p : App.Product)
    (hfind : App.getProduct catalog product_id = some p)
    (hactive : p.is_active = true) :
    App.api_cart_add catalog c product_id qty
      = some (App.cartSet c product_id (App.cartGet c product_id + max 1 qty)) ∧
    App.cartGet (App.cartSet c product_id (App.cartGet c product_id + max 1 qty))
        product_id
      = App.cartGet c product_id + max 1 qty ∧
    (qty ≤ 0 → max 1 qty = 1) ∧
    (0 ≤ App.cartGet c product_id →
      1 ≤ App.cartGet (App.cartSet c product_id
        (App.cartGet c product_id + max 1 qty)) product_id) := by
  refine ⟨?_, App.cartGet_cartSet_self c product_id _, ?_, ?_⟩
  · simp only [App.api_cart_add, hfind, hactive, if_true]
  · intro hq
    exact max_eq_left (le_trans hq zero_le_one)
  · intro hg
    rw [App.cartGet_cartSet_self]
    have h1 : (1 : Int) ≤ max 1 qty := le_max_left 1 qty
    linarith

/-- Witness for C10: adding with requested quantity 0 to an empty cart
creates the entry with quantity exactly 1. -/
theorem c10_witness :
    App.api_cart_add [⟨1, "A", 10, "", "", true⟩] [] 1 0 = some [(1, 1)] ∧
    max (1 : Int) 0 = 1 := by
  have h := c10_add_clamps_quantity [⟨1, "A", 10, "", "", true⟩] [] 1 0
    ⟨1, "A", 10, "", "", true⟩ (by decide) (by decide)
  constructor
  · rw [h.1]
    decide
  · exact h.2.2.1 (by decide)

/-- C5: starting from an empty ledger, no sequence of add / update /
remove operations can produce a cart entry with a non-positive quantity. -/
theorem c5_ledger_entries_always_positive (ops : List App.CartOp) :
    ∀ e ∈ App.applyCartOps ops [], 0 < e.2 :=
  App.applyCartOps_inv ops [] (fun e he => absurd he (List.not_mem_nil e))

/-- Witness for C5: after an add of 2 and an update to 5, the single cart
entry has the positive quantity 5. -/
theorem c5_witness : (0 : Int) < ((1, 5) : Nat × Int).2 :=
  c5_ledger_entries_always_positive
    [App.CartOp.add [⟨1, "A", 10, "", "", true⟩] 1 2, App.CartOp.update 1 5]
    (1, 5) (by decide)
